import Mathlib

/-!
Shallow embedding of the veles WebGPU portal-cube renderer.

JavaScript `number` values are modelled as real numbers (`ℝ`); a
`Float32Array(16)` holding a 4x4 matrix in flat index order `i*4+j`
(row `i`, column `j`, as read by `multiplyMatrices`) is modelled as
`Matrix (Fin 4) (Fin 4) ℝ`.  Typed-array contents uploaded to GPU
buffers are modelled as the lists of values that were written.
-/

namespace Veles

/-- `Vec3` record from `src/types.ts`. -/
structure Vec3 where
  x : ℝ
  y : ℝ
  z : ℝ

/-- `Vec4` record from `src/types.ts`. -/
structure Vec4 where
  x : ℝ
  y : ℝ
  z : ℝ
  w : ℝ

/-- A `Float32Array(16)` matrix; flat index `i*4+j` is entry (row `i`, col `j`). -/
abbrev Mat4 := Matrix (Fin 4) (Fin 4) ℝ

/-- `createIdentityMatrix` from `src/utils/math.ts`: zero array with
flat indices 0, 5, 10, 15 (the diagonal) set to 1. -/
def createIdentityMatrix : Mat4 :=
  !![1, 0, 0, 0;
     0, 1, 0, 0;
     0, 0, 1, 0;
     0, 0, 0, 1]

/-- `createProjectionMatrix(fov, aspect, near, far)` from `src/utils/math.ts`:
`f = 1/tan(fov/2)`, `nf = 1/(near-far)`; zero array with flat entries
`[0] = f/aspect`, `[5] = f`, `[10] = (far+near)*nf`, `[11] = -1`,
`[14] = 2*far*near*nf`, `[15] = 0`. -/
noncomputable def createProjectionMatrix (fov aspect near far : ℝ) : Mat4 :=
  let f := 1 / Real.tan (fov / 2)
  let nf := 1 / (near - far)
  !![f / aspect, 0, 0, 0;
     0, f, 0, 0;
     0, 0, (far + near) * nf, -1;
     0, 0, 2 * far * near * nf, 0]

/-- `crossProduct` from `src/utils/math.ts`. -/
def crossProduct (a b : Vec3) : Vec3 :=
  ⟨a.y * b.z - a.z * b.y, a.z * b.x - a.x * b.z, a.x * b.y - a.y * b.x⟩

/-- `dotProduct` from `src/utils/math.ts`. -/
def dotProduct (a b : Vec3) : ℝ :=
  a.x * b.x + a.y * b.y + a.z * b.z

/-- `normalizeVector` from `src/utils/math.ts`: `length = sqrt(x²+y²+z²)`;
if the length is zero the zero vector is returned, otherwise each
component is divided by the length. -/
noncomputable def normalizeVector (v : Vec3) : Vec3 :=
  let length := Real.sqrt (v.x * v.x + v.y * v.y + v.z * v.z)
  if length = 0 then ⟨0, 0, 0⟩
  else ⟨v.x / length, v.y / length, v.z / length⟩

/-- `createViewMatrix(position, target, up)` from `src/utils/math.ts`:
look-at built from `zAxis = normalize(position-target)`,
`xAxis = normalize(up × zAxis)`, `yAxis = normalize(zAxis × xAxis)`;
flat rows `[0..3] = (xAxis.x, yAxis.x, zAxis.x, 0)`,
`[4..7] = (xAxis.y, yAxis.y, zAxis.y, 0)`,
`[8..11] = (xAxis.z, yAxis.z, zAxis.z, 0)`,
`[12..15] = (-dot(xAxis,position), -dot(yAxis,position), -dot(zAxis,position), 1)`. -/
noncomputable def createViewMatrix (position target up : Vec3) : Mat4 :=
  let zAxis := normalizeVector ⟨position.x - target.x, position.y - target.y,
    position.z - target.z⟩
  let xAxis := normalizeVector (crossProduct up zAxis)
  let yAxis := normalizeVector (crossProduct zAxis xAxis)
  !![xAxis.x, yAxis.x, zAxis.x, 0;
     xAxis.y, yAxis.y, zAxis.y, 0;
     xAxis.z, yAxis.z, zAxis.z, 0;
     -dotProduct xAxis position, -dotProduct yAxis position,
       -dotProduct zAxis position, 1]

/-- `createRotationYMatrix(angle)` from `src/utils/math.ts`: identity with
flat entries `[0] = c`, `[2] = -s`, `[8] = s`, `[10] = c`. -/
noncomputable def createRotationYMatrix (angle : ℝ) : Mat4 :=
  let c := Real.cos angle
  let s := Real.sin angle
  !![c, 0, -s, 0;
     0, 1, 0, 0;
     s, 0, c, 0;
     0, 0, 0, 1]

/-- `createRotationXMatrix(angle)` from `src/utils/math.ts`: identity with
flat entries `[5] = c`, `[6] = s`, `[9] = -s`, `[10] = c`. -/
noncomputable def createRotationXMatrix (angle : ℝ) : Mat4 :=
  let c := Real.cos angle
  let s := Real.sin angle
  !![1, 0, 0, 0;
     0, c, s, 0;
     0, -s, c, 0;
     0, 0, 0, 1]

/-- `createRotationZMatrix(angle)` from `src/utils/math.ts`: identity with
flat entries `[0] = c`, `[1] = s`, `[4] = -s`, `[5] = c`. -/
noncomputable def createRotationZMatrix (angle : ℝ) : Mat4 :=
  let c := Real.cos angle
  let s := Real.sin angle
  !![c, s, 0, 0;
     -s, c, 0, 0;
     0, 0, 1, 0;
     0, 0, 0, 1]

/-- `multiplyMatrices(a, b)` from `src/utils/math.ts`:
`result[i*4+j] = Σ_k a[i*4+k] * b[k*4+j]`. -/
noncomputable def multiplyMatrices (a b : Mat4) : Mat4 :=
  fun i j => ∑ k : Fin 4, a i k * b k j

/-- `createRotationMatrix(x, y, z)` from `src/utils/math.ts`:
`temp = multiply(ry, rz)`, result `= multiply(rx, temp)`. -/
noncomputable def createRotationMatrix (x y z : ℝ) : Mat4 :=
  let rx := createRotationXMatrix x
  let ry := createRotationYMatrix y
  let rz := createRotationZMatrix z
  multiplyMatrices rx (multiplyMatrices ry rz)

/-! ## Camera controller and renderer camera state (`src/core/Camera.ts`, `src/core/Renderer.ts`) -/

/-- `Camera` record from `src/types.ts`. -/
structure Camera where
  position : Vec3
  viewMatrix : Mat4
  projectionMatrix : Mat4

/-- The 128-byte camera uniform buffer: view matrix at byte offset 0,
projection matrix at byte offset 64 (each 16 floats). -/
structure CameraUniformBuffer where
  viewPart : Mat4
  projPart : Mat4

/-- Constants from `CameraController.updateProjectionMatrix`:
`fov = 45 * π / 180`, `near = 0.1`, `far = 100.0`. -/
noncomputable def cameraFov : ℝ := 45 * Real.pi / 180

/-- `CameraController.updateViewMatrix`: view from the current position,
always looking at the origin, with the default up vector `(0,1,0)`. -/
noncomputable def CameraController.updateViewMatrix (position : Vec3) : Mat4 :=
  createViewMatrix position ⟨0, 0, 0⟩ ⟨0, 1, 0⟩

/-- `CameraController.updateProjectionMatrix`: projection from the canvas
aspect ratio `width / height` with the fixed fov/near/far constants. -/
noncomputable def CameraController.updateProjectionMatrix
    (canvasW canvasH : ℝ) : Mat4 :=
  createProjectionMatrix cameraFov (canvasW / canvasH) 0.1 100

/-- `CameraController` constructor: stores the position and runs
`updateViewMatrix` and `updateProjectionMatrix`. -/
noncomputable def CameraController.init (position : Vec3) (canvasW canvasH : ℝ) :
    Camera :=
  { position := position
    viewMatrix := CameraController.updateViewMatrix position
    projectionMatrix := CameraController.updateProjectionMatrix canvasW canvasH }

/-- `CameraController.updateUniformBuffer`: writes the current view matrix at
offset 0 and the current projection matrix at offset 64 of the buffer. -/
def CameraController.updateUniformBuffer (cam : Camera) : CameraUniformBuffer :=
  { viewPart := cam.viewMatrix, projPart := cam.projectionMatrix }

/-- `CameraController.orbitCamera(time)`: position
`(sin(time*0.2)*5, 1.5, cos(time*0.2)*5)`, then `updateViewMatrix`.
The projection matrix and any GPU buffer are untouched. -/
noncomputable def CameraController.orbitCamera (time : ℝ) (cam : Camera) : Camera :=
  let pos : Vec3 := ⟨Real.sin (time * 0.2) * 5, 1.5, Real.cos (time * 0.2) * 5⟩
  { cam with position := pos
             viewMatrix := CameraController.updateViewMatrix pos }

/-- `CameraController.handleResize`: recomputes only the projection matrix
from the new canvas dimensions. -/
noncomputable def CameraController.handleResize (canvasW canvasH : ℝ)
    (cam : Camera) : Camera :=
  { cam with projectionMatrix :=
      CameraController.updateProjectionMatrix canvasW canvasH }

/-- Camera-related state owned by `Renderer`: the controller's camera, the
GPU-side camera uniform buffer (bound once into `cameraBindGroup` at
initialization), and the canvas dimensions. -/
structure RendererCameraState where
  camera : Camera
  cameraBuffer : CameraUniformBuffer
  canvasW : ℝ
  canvasH : ℝ

/-- `Renderer.initialize` (camera part): constructs the `CameraController`
at position `(0,0,5)` and calls `createUniformBuffer`, which performs the
one initial `updateUniformBuffer` write. -/
noncomputable def Renderer.initCameraState (canvasW canvasH : ℝ) : RendererCameraState :=
  let cam := CameraController.init ⟨0, 0, 5⟩ canvasW canvasH
  { camera := cam
    cameraBuffer := CameraController.updateUniformBuffer cam
    canvasW := canvasW
    canvasH := canvasH }

/-- `Renderer.handleResize`: resizes the canvas, recreates the depth-stencil
texture (not modelled) and calls `cameraController.handleResize()`.
No write to the camera uniform buffer occurs on this path. -/
noncomputable def Renderer.handleResize (canvasW canvasH : ℝ)
    (s : RendererCameraState) : RendererCameraState :=
  { s with canvasW := canvasW
           canvasH := canvasH
           camera := CameraController.handleResize canvasW canvasH s.camera }

/-- One tick of `Renderer.startAnimationLoop`'s `animate` callback as far as
camera state is concerned: `orbitCamera(timeInSeconds)` followed by the
render callback.  The render callback (`VelesPortals.render`) writes only
the cube's rotation transform buffer, never the camera uniform buffer. -/
noncomputable def Renderer.animateTick (timeInSeconds : ℝ)
    (s : RendererCameraState) : RendererCameraState :=
  { s with camera := CameraController.orbitCamera timeInSeconds s.camera }

/-! ## Geometry builders (`src/geometry/BoxGeometry.ts`) -/

/-- `ObjectGeometry` from `src/types.ts`.  Each buffer is modelled by the
data uploaded into it: positions grouped three floats per vertex
(`Vec3`), colors four floats per vertex (`Vec4`), indices as the
`Uint16Array` contents. -/
structure ObjectGeometry where
  vertexBuffer : List Vec3
  colorBuffer : List Vec4
  indexBuffer : List ℕ
  indexCount : ℕ

/-- `BoxGeometry.create` from `src/geometry/BoxGeometry.ts`: 24 vertices
(4 per face, 6 faces), per-face colors derived from the input color, and
36 indices.  The `Uint16Array` conversion reduces each index mod 2^16. -/
noncomputable def BoxGeometry.create (width height depth : ℝ) (color : Vec4)
    (position : Vec3) : ObjectGeometry :=
  let x0 := position.x - width / 2
  let x1 := position.x + width / 2
  let y0 := position.y - height / 2
  let y1 := position.y + height / 2
  let z0 := position.z - depth / 2
  let z1 := position.z + depth / 2
  let vertices : List Vec3 :=
    [⟨x0, y0, z1⟩, ⟨x1, y0, z1⟩, ⟨x1, y1, z1⟩, ⟨x0, y1, z1⟩,  -- front
     ⟨x0, y0, z0⟩, ⟨x1, y0, z0⟩, ⟨x1, y1, z0⟩, ⟨x0, y1, z0⟩,  -- back
     ⟨x0, y1, z0⟩, ⟨x1, y1, z0⟩, ⟨x1, y1, z1⟩, ⟨x0, y1, z1⟩,  -- top
     ⟨x0, y0, z0⟩, ⟨x1, y0, z0⟩, ⟨x1, y0, z1⟩, ⟨x0, y0, z1⟩,  -- bottom
     ⟨x1, y0, z0⟩, ⟨x1, y1, z0⟩, ⟨x1, y1, z1⟩, ⟨x1, y0, z1⟩,  -- right
     ⟨x0, y0, z0⟩, ⟨x0, y1, z0⟩, ⟨x0, y1, z1⟩, ⟨x0, y0, z1⟩]  -- left
  let colors : List Vec4 :=
    [⟨color.x, color.y, color.z, color.w⟩, ⟨color.x, color.y, color.z, color.w⟩,
     ⟨color.x, color.y, color.z, color.w⟩, ⟨color.x, color.y, color.z, color.w⟩,
     ⟨color.y, color.x, color.z, color.w⟩, ⟨color.y, color.x, color.z, color.w⟩,
     ⟨color.y, color.x, color.z, color.w⟩, ⟨color.y, color.x, color.z, color.w⟩,
     ⟨color.z, color.x, color.y, color.w⟩, ⟨color.z, color.x, color.y, color.w⟩,
     ⟨color.z, color.x, color.y, color.w⟩, ⟨color.z, color.x, color.y, color.w⟩,
     ⟨color.x, color.y, 0, color.w⟩, ⟨color.x, color.y, 0, color.w⟩,
     ⟨color.x, color.y, 0, color.w⟩, ⟨color.x, color.y, 0, color.w⟩,
     ⟨0, color.y, color.z, color.w⟩, ⟨0, color.y, color.z, color.w⟩,
     ⟨0, color.y, color.z, color.w⟩, ⟨0, color.y, color.z, color.w⟩,
     ⟨color.x, 0, color.z, color.w⟩, ⟨color.x, 0, color.z, color.w⟩,
     ⟨color.x, 0, color.z, color.w⟩, ⟨color.x, 0, color.z, color.w⟩]
  let indices : List ℕ :=
    [0, 1, 2, 0, 2, 3,
     4, 6, 5, 4, 7, 6,
     8, 9, 10, 8, 10, 11,
     12, 14, 13, 12, 15, 14,
     16, 18, 17, 16, 19, 18,
     20, 21, 22, 20, 22, 23]
  { vertexBuffer := vertices
    colorBuffer := colors
    indexBuffer := indices.map (· % 65536)
    indexCount := (indices.map (· % 65536)).length }

/-- `BoxGeometry.createQuad` from `src/geometry/BoxGeometry.ts`: a flat quad
of 4 vertices and 6 indices, at `z = position.z`. -/
noncomputable def BoxGeometry.createQuad (width height : ℝ) (color : Vec4)
    (position : Vec3) : ObjectGeometry :=
  let halfWidth := width / 2
  let halfHeight := height / 2
  let x0 := position.x - halfWidth
  let x1 := position.x + halfWidth
  let y0 := position.y - halfHeight
  let y1 := position.y + halfHeight
  let z := position.z
  let vertices : List Vec3 := [⟨x0, y0, z⟩, ⟨x1, y0, z⟩, ⟨x1, y1, z⟩, ⟨x0, y1, z⟩]
  let colors : List Vec4 :=
    [⟨color.x, color.y, color.z, color.w⟩, ⟨color.x, color.y, color.z, color.w⟩,
     ⟨color.x, color.y, color.z, color.w⟩, ⟨color.x, color.y, color.z, color.w⟩]
  let indices : List ℕ := [0, 1, 2, 0, 2, 3]
  { vertexBuffer := vertices
    colorBuffer := colors
    indexBuffer := indices.map (· % 65536)
    indexCount := (indices.map (· % 65536)).length }

/-! ## Transparent cube composite (`src/geometry/TransparentCube.ts`) -/

/-- `CubeFace` from `src/geometry/TransparentCube.ts`. -/
structure CubeFace where
  geometry : ObjectGeometry
  stencilValue : ℕ
  transform : Mat4

/-- The `faceFacePositions` array in `TransparentCube.createFaces`. -/
def TransparentCube.faceFacePositions (halfSize : ℝ) : List Vec3 :=
  [⟨0, 0, halfSize⟩,    -- front  (positive Z)
   ⟨0, 0, -halfSize⟩,   -- back   (negative Z)
   ⟨0, halfSize, 0⟩,    -- top    (positive Y)
   ⟨0, -halfSize, 0⟩,   -- bottom (negative Y)
   ⟨halfSize, 0, 0⟩,    -- right  (positive X)
   ⟨-halfSize, 0, 0⟩]   -- left   (negative X)

/-- The `faceRotations` array in `TransparentCube.createFaces`. -/
noncomputable def TransparentCube.faceRotations : List Vec3 :=
  [⟨0, 0, 0⟩,
   ⟨0, Real.pi, 0⟩,
   ⟨Real.pi / 2, 0, 0⟩,
   ⟨-(Real.pi / 2), 0, 0⟩,
   ⟨0, Real.pi / 2, 0⟩,
   ⟨0, -(Real.pi / 2), 0⟩]

/-- `TransparentCube.createFaces`: for `i = 0..5` pushes a face with
`stencilValue = i + 1`, a quad of side `size * 0.95` at the i-th face
position, and the i-th fixed face rotation. -/
noncomputable def TransparentCube.createFaces (size : ℝ) : List CubeFace :=
  let halfSize := size / 2
  let faceSize := size * 0.95
  (List.range 6).map fun i =>
    let stencilValue := i + 1
    let pos := (TransparentCube.faceFacePositions halfSize).getD i ⟨0, 0, 0⟩
    let rot := TransparentCube.faceRotations.getD i ⟨0, 0, 0⟩
    { geometry := BoxGeometry.createQuad faceSize faceSize ⟨1, 1, 1, 1⟩ pos
      stencilValue := stencilValue
      transform := createRotationMatrix rot.x rot.y rot.z }

/-- The outer shell created in the `TransparentCube` constructor: a box of
the cube's size with mostly transparent white color at the origin. -/
noncomputable def TransparentCube.outerCube (size : ℝ) : ObjectGeometry :=
  BoxGeometry.create size size size ⟨0.9, 0.9, 0.9, 0.05⟩ ⟨0, 0, 0⟩

/-- `TransparentCube.updateRotation(time)`: `angle = time * 0.3`, rotation
matrix `createRotationMatrix(angle * 0.5, angle, angle * 0.25)`; this value
is also written to the 64-byte rotation transform buffer. -/
noncomputable def TransparentCube.updateRotation (time : ℝ) : Mat4 :=
  let rotationSpeed : ℝ := 0.3
  let angle := time * rotationSpeed
  createRotationMatrix (angle * 0.5) angle (angle * 0.25)

/-! ## Per-frame draw sequence (`src/main.ts`, `VelesPortals.render`) -/

/-- Which transform uniform buffer a draw call binds at group 1:
the cube's shared rotation buffer or the static identity buffer. -/
inductive TransformBinding where
  | rotation
  | identityTransform
deriving DecidableEq

/-- One draw command issued into the render pass, in issue order:
`StencilManager.renderStencilMask`, `Renderer.renderObject` (stencil
compare equal, reference `stencilValue`), or
`Renderer.renderTransparentObject`. -/
inductive DrawCommand where
  | stencilMask (geometry : ObjectGeometry) (stencilValue : ℕ)
      (transform : TransformBinding)
  | renderObject (geometry : ObjectGeometry) (stencilValue : ℕ)
      (transform : TransformBinding)
  | renderTransparent (geometry : ObjectGeometry) (transform : TransformBinding)

/-- Phase 2 of `VelesPortals.render`: for `i = 0..faces.length-1`,
`stencilValue = i + 1`; even `i` draws the inner cube, odd `i` the inner
sphere, both with the identity transform bind group. -/
def VelesPortals.innerObjectDraws (faces : List CubeFace)
    (innerCube innerSphere : ObjectGeometry) : List DrawCommand :=
  (List.range faces.length).map fun i =>
    let stencilValue := i + 1
    if i % 2 = 0 then
      DrawCommand.renderObject innerCube stencilValue .identityTransform
    else
      DrawCommand.renderObject innerSphere stencilValue .identityTransform

/-- `VelesPortals.render`: (1) one stencil mask per cube face with that
face's `stencilValue` and the cube rotation transform; (2) the stencil-gated
inner object draws; (3) one transparent draw of the outer cube with the
rotation transform. -/
def VelesPortals.render (faces : List CubeFace)
    (innerCube innerSphere outerCube : ObjectGeometry) : List DrawCommand :=
  (faces.map fun face =>
    DrawCommand.stencilMask face.geometry face.stencilValue .rotation)
  ++ VelesPortals.innerObjectDraws faces innerCube innerSphere
  ++ [DrawCommand.renderTransparent outerCube .rotation]

/-- The inner cube of `VelesPortals.createGeometries`: red box of size 0.8
at the origin. -/
noncomputable def VelesPortals.innerCube : ObjectGeometry :=
  BoxGeometry.create 0.8 0.8 0.8 ⟨1.0, 0.2, 0.2, 1.0⟩ ⟨0, 0, 0⟩

/-! ## Sphere builder (`src/geometry/SphereGeometry.ts`) -/

/-- The clamp `widthSegments = Math.max(3, Math.floor(widthSegments))`
applied by `SphereGeometry.create`; the result is a natural number ≥ 3. -/
noncomputable def clampedWidthSegments (widthSegments : ℝ) : ℕ :=
  (max 3 ⌊widthSegments⌋).toNat

/-- The clamp `heightSegments = Math.max(2, Math.floor(heightSegments))`
applied by `SphereGeometry.create`; the result is a natural number ≥ 2. -/
noncomputable def clampedHeightSegments (heightSegments : ℝ) : ℕ :=
  (max 2 ⌊heightSegments⌋).toNat

/-- The vertex pushed for grid slot `(iy, ix)`: `v = iy/heightSegments`,
`u = ix/widthSegments`, `phi = u*π*2`, `theta = v*π`,
position `position + radius * (cos φ sin θ, cos θ, sin φ sin θ)`. -/
noncomputable def sphereVertexPosition (radius : ℝ) (position : Vec3)
    (widthSegments heightSegments : ℕ) (iy ix : ℕ) : Vec3 :=
  let v : ℝ := (iy : ℝ) / (heightSegments : ℝ)
  let u : ℝ := (ix : ℝ) / (widthSegments : ℝ)
  let phi := u * Real.pi * 2
  let theta := v * Real.pi
  ⟨position.x + radius * (Real.cos phi * Real.sin theta),
   position.y + radius * Real.cos theta,
   position.z + radius * (Real.sin phi * Real.sin theta)⟩

/-- The vertex/grid generation loops of `SphereGeometry.create`: for each
`iy = 0..heightSegments` and `ix = 0..widthSegments`, push the vertex's
three floats (here: one `Vec3`) onto `vertices` and push
`vertices.length / 3 - 1` (the running vertex count minus one) onto the
current grid `row`; each finished row is pushed onto `grid`. -/
noncomputable def sphereBuild (radius : ℝ) (position : Vec3)
    (widthSegments heightSegments : ℕ) : List Vec3 × List (List ℕ) :=
  (List.range (heightSegments + 1)).foldl
    (fun acc iy =>
      let rowResult := (List.range (widthSegments + 1)).foldl
        (fun acc2 ix =>
          let vertices := acc2.1 ++
            [sphereVertexPosition radius position widthSegments heightSegments iy ix]
          (vertices, acc2.2 ++ [vertices.length - 1]))
        (acc.1, ([] : List ℕ))
      (rowResult.1, acc.2 ++ [rowResult.2]))
    (([] : List Vec3), ([] : List (List ℕ)))

/-- The index-generation loops of `SphereGeometry.create`: for each
`iy = 0..heightSegments-1` and `ix = 0..widthSegments-1`, with
`a = grid[iy][ix+1]`, `b = grid[iy][ix]`, `c = grid[iy+1][ix]`,
`d = grid[iy+1][ix+1]`, push `a, b, d` unless `iy = 0` and then
`b, c, d` unless `iy = heightSegments - 1`. -/
def sphereIndices (widthSegments heightSegments : ℕ)
    (grid : List (List ℕ)) : List ℕ :=
  (List.range heightSegments).flatMap fun iy =>
    (List.range widthSegments).flatMap fun ix =>
      let a := (grid.getD iy []).getD (ix + 1) 0
      let b := (grid.getD iy []).getD ix 0
      let c := (grid.getD (iy + 1) []).getD ix 0
      let d := (grid.getD (iy + 1) []).getD (ix + 1) 0
      (if iy ≠ 0 then [a, b, d] else [])
        ++ (if iy ≠ heightSegments - 1 then [b, c, d] else [])

/-- The normalized vertical position used by the sphere's color gradient:
`(y - (position.y - radius)) / (2 * radius)`. -/
noncomputable def sphereNormalizedY (radius : ℝ) (position : Vec3) (y : ℝ) : ℝ :=
  (y - (position.y - radius)) / (2 * radius)

/-- The 4-band color gradient of `SphereGeometry.create`, keyed on the
normalized vertical position; the alpha channel is the input color's
alpha. -/
noncomputable def sphereBandColor (normalizedY alpha : ℝ) : Vec4 :=
  if normalizedY < 0.2 then
    ⟨0.0, 0.0, 0.8 + normalizedY, alpha⟩
  else if normalizedY < 0.5 then
    ⟨0.0, 0.5 + normalizedY, 0.5 + normalizedY / 2, alpha⟩
  else if normalizedY < 0.8 then
    ⟨(normalizedY - 0.5) * 2, 0.8, (0.8 - normalizedY) * 2, alpha⟩
  else
    ⟨1.0, (1.0 - normalizedY) * 5, 0.0, alpha⟩

/-- The color loop of `SphereGeometry.create`: for each vertex index
`i < vertices.length / 3`, the four floats written at `colors[i*4 ..]` are
the band color of `normalizedY(vertices[i*3+1])` with the input alpha. -/
noncomputable def sphereColors (radius : ℝ) (position : Vec3) (color : Vec4)
    (vertices : List Vec3) : List Vec4 :=
  (List.range vertices.length).map fun i =>
    sphereBandColor
      (sphereNormalizedY radius position ((vertices.getD i ⟨0, 0, 0⟩).y))
      color.w

/-- `SphereGeometry.create` from `src/geometry/SphereGeometry.ts`: clamp the
segment counts, generate vertices and grid, stitch indices, build the
gradient colors; the `Uint16Array` conversion reduces each index mod 2^16
and `indexCount` is the length of that index array. -/
noncomputable def SphereGeometry.create (radius widthSegments heightSegments : ℝ)
    (color : Vec4) (position : Vec3) : ObjectGeometry :=
  let W := clampedWidthSegments widthSegments
  let H := clampedHeightSegments heightSegments
  let built := sphereBuild radius position W H
  let vertices := built.1
  let indices := sphereIndices W H built.2
  { vertexBuffer := vertices
    colorBuffer := sphereColors radius position color vertices
    indexBuffer := indices.map (· % 65536)
    indexCount := (indices.map (· % 65536)).length }

/-- The inner sphere of `VelesPortals.createGeometries`: blue sphere of
radius 0.6 with 24 width and 18 height segments at the origin. -/
noncomputable def VelesPortals.innerSphere : ObjectGeometry :=
  SphereGeometry.create 0.6 24 18 ⟨0.2, 0.2, 1.0, 1.0⟩ ⟨0, 0, 0⟩

/-- The cube faces of the application's `TransparentCube(device, 2.0)`. -/
noncomputable def VelesPortals.transparentCubeFaces : List CubeFace :=
  TransparentCube.createFaces 2

/-- The draw sequence of one `VelesPortals.render` frame with the
application's actual geometries. -/
noncomputable def VelesPortals.frameDraws : List DrawCommand :=
  VelesPortals.render VelesPortals.transparentCubeFaces VelesPortals.innerCube
    VelesPortals.innerSphere (TransparentCube.outerCube 2)

/-! ## Theorems -/

/-- Helper: with angle 0, all three axis rotation matrices are the identity
and their composition is the identity. -/
theorem createRotationMatrix_zero :
    createRotationMatrix 0 0 0 = createIdentityMatrix := by
  unfold createRotationMatrix createRotationXMatrix createRotationYMatrix
    createRotationZMatrix multiplyMatrices createIdentityMatrix
  ext i j
  fin_cases i <;> fin_cases j <;>
    simp [Fin.sum_univ_four, Real.cos_zero, Real.sin_zero, Matrix.vecHead,
      Matrix.vecTail]

/-- C7: `createRotationMatrix(0,0,0)` equals the identity matrix exactly,
and `TransparentCube.updateRotation(0)` sets the shared rotation matrix to
the exact identity. -/
theorem rotation_zero_is_identity :
    createRotationMatrix 0 0 0 = createIdentityMatrix ∧
      TransparentCube.updateRotation 0 = createIdentityMatrix := by
  refine ⟨createRotationMatrix_zero, ?_⟩
  unfold TransparentCube.updateRotation
  simpa using createRotationMatrix_zero

/-- C8: `normalizeVector` applied to the zero vector returns the zero
vector: the zero-length guard takes the branch that never divides. -/
theorem normalizeVector_zero :
    normalizeVector ⟨0, 0, 0⟩ = (⟨0, 0, 0⟩ : Vec3) := by
  unfold normalizeVector
  norm_num

/-- C9: for fixed fov, near and far, the projection matrix at aspect 2
differs from the one at aspect 1 only at entry (0,0) (flat index 0), which
is the aspect-1 value scaled by 1/2; the other fifteen entries coincide. -/
theorem projectionMatrix_aspect_two (fov near far : ℝ) (i j : Fin 4) :
    createProjectionMatrix fov 2 near far i j =
      if i = 0 ∧ j = 0 then createProjectionMatrix fov 1 near far i j / 2
      else createProjectionMatrix fov 1 near far i j := by
  unfold createProjectionMatrix
  fin_cases i <;> fin_cases j <;> simp

/-- C1: refuted — evaluating the code's event sequence at a concrete input.
After initialization with an 800×800 canvas followed by a resize to
1600×800, the camera's projection matrix has changed but the GPU-side
camera uniform buffer still holds the initialization-time projection:
nothing on the resize (or per-frame orbit) path ever calls
`updateUniformBuffer` again, so the buffer is NOT re-synced. -/
theorem cameraBuffer_stale_after_resize :
    (Renderer.handleResize 1600 800 (Renderer.initCameraState 800 800)).cameraBuffer.projPart
      ≠ (Renderer.handleResize 1600 800
          (Renderer.initCameraState 800 800)).camera.projectionMatrix := by
  have h8 : cameraFov / 2 = Real.pi / 8 := by unfold cameraFov; ring
  have htan : 0 < Real.tan (cameraFov / 2) := by
    rw [h8]
    refine Real.tan_pos_of_pos_of_lt_pi_div_two (by positivity) ?_
    rw [div_lt_div_iff₀ (by norm_num) (by norm_num)]
    nlinarith [Real.pi_pos]
  intro h
  have h00 := congrFun (congrFun h 0) 0
  simp only [Renderer.handleResize, Renderer.initCameraState, CameraController.init,
    CameraController.handleResize, CameraController.updateProjectionMatrix,
    CameraController.updateUniformBuffer, createProjectionMatrix] at h00
  norm_num [Matrix.cons_val_zero] at h00
  have hpos : 0 < (Real.tan (cameraFov / 2))⁻¹ := inv_pos.mpr htan
  linarith [h00, hpos]

/-- C2: the frame's draw sequence is exactly: six stencil-mask draws, one
per face with that face's stencil value (1..6) and the rotation transform;
then six stencil-gated object draws with references 1..6, the inner cube
for even face index and the inner sphere for odd, with the identity
transform; then one transparent draw of the outer shell with the rotation
transform. -/
theorem frame_draw_order :
    VelesPortals.frameDraws =
      (VelesPortals.transparentCubeFaces.map fun face =>
        DrawCommand.stencilMask face.geometry face.stencilValue .rotation)
      ++ [DrawCommand.renderObject VelesPortals.innerCube 1 .identityTransform,
          DrawCommand.renderObject VelesPortals.innerSphere 2 .identityTransform,
          DrawCommand.renderObject VelesPortals.innerCube 3 .identityTransform,
          DrawCommand.renderObject VelesPortals.innerSphere 4 .identityTransform,
          DrawCommand.renderObject VelesPortals.innerCube 5 .identityTransform,
          DrawCommand.renderObject VelesPortals.innerSphere 6 .identityTransform]
      ++ [DrawCommand.renderTransparent (TransparentCube.outerCube 2) .rotation]
    ∧ VelesPortals.transparentCubeFaces.map CubeFace.stencilValue
        = [1, 2, 3, 4, 5, 6] := by
  have hlen : VelesPortals.transparentCubeFaces.length = 6 := by
    simp [VelesPortals.transparentCubeFaces, TransparentCube.createFaces]
  constructor
  · simp only [VelesPortals.frameDraws, VelesPortals.render,
      VelesPortals.innerObjectDraws, hlen]
    norm_num [List.range_succ]
  · simp only [VelesPortals.transparentCubeFaces, TransparentCube.createFaces,
      List.map_map]
    norm_num [List.range_succ]

/-- C3: every `TransparentCube` construction creates exactly six faces whose
stencil values are exactly `[1, 2, 3, 4, 5, 6]` (face `i` has value
`i + 1`), and the render callback's stencil-gated phase draws the inner
cube for even face index and the inner sphere for odd face index. -/
theorem createFaces_invariants (size : ℝ) :
    (TransparentCube.createFaces size).length = 6
    ∧ (TransparentCube.createFaces size).map CubeFace.stencilValue
        = [1, 2, 3, 4, 5, 6]
    ∧ VelesPortals.innerObjectDraws (TransparentCube.createFaces size)
        VelesPortals.innerCube VelesPortals.innerSphere =
      [DrawCommand.renderObject VelesPortals.innerCube 1 .identityTransform,
       DrawCommand.renderObject VelesPortals.innerSphere 2 .identityTransform,
       DrawCommand.renderObject VelesPortals.innerCube 3 .identityTransform,
       DrawCommand.renderObject VelesPortals.innerSphere 4 .identityTransform,
       DrawCommand.renderObject VelesPortals.innerCube 5 .identityTransform,
       DrawCommand.renderObject VelesPortals.innerSphere 6 .identityTransform] := by
  have hlen : (TransparentCube.createFaces size).length = 6 := by
    simp [TransparentCube.createFaces]
  refine ⟨hlen, ?_, ?_⟩
  · simp only [TransparentCube.createFaces, List.map_map]
    norm_num [List.range_succ]
  · simp only [VelesPortals.innerObjectDraws, hlen]
    norm_num [List.range_succ]

/-- C5: for every width, height, depth, color and position, the box mesh
has exactly 24 vertices (72 position floats), exactly 36 indices, every
index strictly below 24, and `indexCount = 36`. -/
theorem box_create_counts (width height depth : ℝ) (color : Vec4)
    (position : Vec3) :
    (BoxGeometry.create width height depth color position).vertexBuffer.length = 24
    ∧ 3 * (BoxGeometry.create width height depth color position).vertexBuffer.length
        = 72
    ∧ (BoxGeometry.create width height depth color position).indexBuffer.length = 36
    ∧ ((BoxGeometry.create width height depth color position).indexBuffer.all
        fun idx => idx < 24) = true
    ∧ (BoxGeometry.create width height depth color position).indexCount = 36 := by
  refine ⟨?_, ?_, ?_, ?_, ?_⟩ <;> simp [BoxGeometry.create]

/-- C6: each face's four vertices share one color, obtained from the input
`(r,g,b,a)` by the fixed scheme: front `(r,g,b,a)`, back `(g,r,b,a)`, top
`(b,r,g,a)`, bottom `(r,g,0,a)`, right `(0,g,b,a)`, left `(r,0,b,a)`. -/
theorem box_face_colors (width height depth : ℝ) (color : Vec4)
    (position : Vec3) :
    (BoxGeometry.create width height depth color position).colorBuffer =
      ([⟨color.x, color.y, color.z, color.w⟩,
        ⟨color.y, color.x, color.z, color.w⟩,
        ⟨color.z, color.x, color.y, color.w⟩,
        ⟨color.x, color.y, 0, color.w⟩,
        ⟨0, color.y, color.z, color.w⟩,
        ⟨color.x, 0, color.z, color.w⟩] : List Vec4).flatMap
        (fun q => List.replicate 4 q) := by
  simp [BoxGeometry.create, List.flatMap_cons, List.replicate]

/-- Helper: closed form of the inner (`ix`) loop of `sphereBuild`.  Pushing
one vertex per iteration and recording `length - 1` appends the mapped
vertices and the running counts. -/
theorem sphereBuild_inner_eq (g : ℕ → Vec3) :
    ∀ (l : List ℕ) (vs0 : List Vec3) (r0 : List ℕ),
      l.foldl (fun acc2 ix =>
          let vertices := acc2.1 ++ [g ix]
          (vertices, acc2.2 ++ [vertices.length - 1])) (vs0, r0)
        = (vs0 ++ l.map g,
           r0 ++ (List.range l.length).map (fun k => vs0.length + k)) := by
  intro l
  induction l with
  | nil => intro vs0 r0; simp
  | cons a t ih =>
    intro vs0 r0
    rw [List.foldl_cons, ih]
    refine Prod.ext ?_ ?_
    · simp
    · have hf : (fun k => vs0.length + 1 + k) = (fun k => vs0.length + (k + 1)) := by
        funext k; omega

      simp [List.range_succ_eq_map, List.map_map, Function.comp_def, hf]

/-- Helper: closed form of the outer (`iy`) loop of `sphereBuild` over
`range' s n`, under the invariant that `vs0` already holds `s` complete
rows of `widthSegments + 1` vertices. -/
theorem sphereBuild_outer_eq (radius : ℝ) (position : Vec3) (W H : ℕ) :
    ∀ (n s : ℕ) (vs0 : List Vec3) (g0 : List (List ℕ)),
      vs0.length = s * (W + 1) →
      (List.range' s n).foldl (fun acc iy =>
          let rowResult := (List.range (W + 1)).foldl
            (fun acc2 ix =>
              let vertices := acc2.1 ++ [sphereVertexPosition radius position W H iy ix]
              (vertices, acc2.2 ++ [vertices.length - 1]))
            (acc.1, ([] : List ℕ))
          (rowResult.1, acc.2 ++ [rowResult.2])) (vs0, g0)
        = (vs0 ++ (List.range' s n).flatMap (fun iy =>
              (List.range (W + 1)).map (sphereVertexPosition radius position W H iy)),
           g0 ++ (List.range' s n).map (fun iy =>
              (List.range (W + 1)).map (fun ix => iy * (W + 1) + ix))) := by
  intro n
  induction n with
  | zero => intro s vs0 g0 _; simp
  | succ n ih =>
    intro s vs0 g0 hlen
    rw [List.range'_succ, List.foldl_cons,
      sphereBuild_inner_eq (sphereVertexPosition radius position W H s)]
    have hrow : (List.range ((List.range (W + 1)).length)).map
        (fun k => vs0.length + k)
        = (List.range (W + 1)).map (fun ix => s * (W + 1) + ix) := by
      simp [hlen]
    have hlen' : (vs0 ++ (List.range (W + 1)).map
        (sphereVertexPosition radius position W H s)).length = (s + 1) * (W + 1) := by
      simp [hlen]; ring
    rw [hrow, ih (s + 1) _ _ hlen']
    refine Prod.ext ?_ ?_
    · simp [List.flatMap_cons, List.append_assoc]
    · simp [List.append_assoc, List.nil_append]

/-- Helper: closed form of `sphereBuild`: the vertex list is the double
loop's flat map, the grid row for `iy` holds `iy*(W+1) + ix`. -/
theorem sphereBuild_eq (radius : ℝ) (position : Vec3) (W H : ℕ) :
    sphereBuild radius position W H
      = ((List.range (H + 1)).flatMap (fun iy =>
            (List.range (W + 1)).map (sphereVertexPosition radius position W H iy)),
         (List.range (H + 1)).map (fun iy =>
            (List.range (W + 1)).map (fun ix => iy * (W + 1) + ix))) := by
  have h := sphereBuild_outer_eq radius position W H (H + 1) 0 [] [] (by simp)
  rw [← List.range_eq_range'] at h
  simpa [sphereBuild] using h

/-- Helper: the sphere vertex list has `(H+1)*(W+1)` entries. -/
theorem sphereBuild_fst_length (radius : ℝ) (position : Vec3) (W H : ℕ) :
    (sphereBuild radius position W H).1.length = (H + 1) * (W + 1) := by
  rw [sphereBuild_eq]
  simp [List.length_flatMap, Function.comp_def, List.map_const', List.sum_replicate]

/-- Helper: indexing the flat map of constant-size mapped rows: entry
`a * m + b` of rows generated from `range' s n` is entry `b` of row `s + a`. -/
theorem flatMap_rows_getD {α : Type} (g : ℕ → ℕ → α) (m : ℕ) (d : α) :
    ∀ (n s a b : ℕ), a < n → b < m →
      (((List.range' s n).flatMap (fun iy => (List.range m).map (g iy))).getD
          (a * m + b) d)
        = g (s + a) b := by
  intro n
  induction n with
  | zero => intro s a b ha _; omega
  | succ n ih =>
    intro s a b ha hb
    rw [List.range'_succ, List.flatMap_cons]
    match a with
    | 0 =>
      rw [Nat.zero_mul, Nat.zero_add, List.getD_append _ _ _ _ (by simpa using hb),
        List.getD_eq_getElem?_getD, List.getElem?_map, List.getElem?_range hb]
      simp
    | a + 1 =>
      have hlen : ((List.range m).map (g s)).length = m := by simp
      rw [List.getD_append_right _ _ _ _ (by rw [hlen]; nlinarith)]
      rw [hlen]
      have hidx : (a + 1) * m + b - m = a * m + b := by ring_nf; omega
      rw [hidx, ih (s + 1) a b (by omega) hb]
      congr 1
      omega

/-- Helper: the sphere vertex at linear position `iy*(W+1) + ix`. -/
theorem sphereBuild_vertex_getD (radius : ℝ) (position : Vec3) (W H iy ix : ℕ)
    (hiy : iy < H + 1) (hix : ix < W + 1) (d : Vec3) :
    (sphereBuild radius position W H).1.getD (iy * (W + 1) + ix) d
      = sphereVertexPosition radius position W H iy ix := by
  rw [sphereBuild_eq]
  have h := flatMap_rows_getD (sphereVertexPosition radius position W H) (W + 1) d
    (H + 1) 0 iy ix hiy hix
  rw [← List.range_eq_range'] at h
  simpa using h

/-- Helper: the grid row `iy` at column `ix` holds `iy*(W+1) + ix`. -/
theorem sphereBuild_grid_getD (radius : ℝ) (position : Vec3) (W H iy ix : ℕ)
    (hiy : iy < H + 1) (hix : ix < W + 1) :
    (((sphereBuild radius position W H).2.getD iy []).getD ix 0)
      = iy * (W + 1) + ix := by
  rw [sphereBuild_eq]
  have hrow : ((List.range (H + 1)).map (fun iy =>
      (List.range (W + 1)).map (fun ix => iy * (W + 1) + ix))).getD iy []
      = (List.range (W + 1)).map (fun ix => iy * (W + 1) + ix) := by
    rw [List.getD_eq_getElem?_getD, List.getElem?_map, List.getElem?_range hiy]
    simp
  rw [hrow, List.getD_eq_getElem?_getD, List.getElem?_map, List.getElem?_range hix]
  simp

/-- Helper: sums over `List.range` as `Finset.range` sums. -/
theorem list_sum_range_map (f : ℕ → ℕ) (n : ℕ) :
    ((List.range n).map f).sum = ∑ i ∈ Finset.range n, f i := by
  induction n with
  | zero => simp
  | succ n ih =>
    rw [List.range_succ, List.map_append, List.sum_append, Finset.sum_range_succ, ih]
    simp

/-- Helper: summing `A` over `range n` except at one point `k < n`. -/
theorem sum_ite_ne_point (n A k : ℕ) (hk : k < n) :
    (∑ iy ∈ Finset.range n, if iy ≠ k then A else 0) = A * (n - 1) := by
  have hk' : k ∈ Finset.range n := Finset.mem_range.mpr hk
  rw [← Finset.sum_erase_add _ _ hk', if_neg (by simp)]
  rw [Finset.sum_congr rfl (fun x hx => if_pos (Finset.ne_of_mem_erase hx))]
  rw [Finset.sum_const, Finset.card_erase_of_mem hk', Finset.card_range,
    smul_eq_mul, Nat.add_zero, Nat.mul_comm]

/-- Helper: the sphere index list has `6 * W * (H - 1)` entries (for any
grid and `H ≥ 2`): the top row and bottom row each contribute one triangle
per quad, the `H - 2` interior rows two. -/
theorem sphereIndices_length (W H : ℕ) (grid : List (List ℕ)) (hH : 2 ≤ H) :
    (sphereIndices W H grid).length = 6 * W * (H - 1) := by
  unfold sphereIndices
  rw [List.length_flatMap]
  have hinner : ∀ iy : ℕ,
      ((List.range W).flatMap fun ix =>
        (if iy ≠ 0 then [(grid.getD iy []).getD (ix + 1) 0,
            (grid.getD iy []).getD ix 0, (grid.getD (iy + 1) []).getD (ix + 1) 0]
          else [])
        ++ (if iy ≠ H - 1 then [(grid.getD iy []).getD ix 0,
            (grid.getD (iy + 1) []).getD ix 0, (grid.getD (iy + 1) []).getD (ix + 1) 0]
          else [])).length
      = W * ((if iy ≠ 0 then 3 else 0) + (if iy ≠ H - 1 then 3 else 0)) := by
    intro iy
    rw [List.length_flatMap]
    have : ∀ ix : ℕ,
        ((if iy ≠ 0 then [(grid.getD iy []).getD (ix + 1) 0,
            (grid.getD iy []).getD ix 0, (grid.getD (iy + 1) []).getD (ix + 1) 0]
          else [])
        ++ (if iy ≠ H - 1 then [(grid.getD iy []).getD ix 0,
            (grid.getD (iy + 1) []).getD ix 0, (grid.getD (iy + 1) []).getD (ix + 1) 0]
          else [])).length
        = (if iy ≠ 0 then 3 else 0) + (if iy ≠ H - 1 then 3 else 0) := by
      intro ix
      rw [List.length_append]
      congr 1 <;> split_ifs <;> simp
    simp only [Function.comp_def, this, List.map_const', List.sum_replicate,
      List.length_range, smul_eq_mul]
  simp only [Function.comp_def, hinner]
  rw [list_sum_range_map]
  rw [← Finset.mul_sum, Finset.sum_add_distrib,
    sum_ite_ne_point H 3 0 (by omega), sum_ite_ne_point H 3 (H - 1) (by omega)]
  ring

/-- Helper: every value stored in the sphere grid region is below the
vertex count. -/
theorem grid_value_lt (W H iy' ix' : ℕ) (hiy : iy' ≤ H) (hix : ix' ≤ W) :
    iy' * (W + 1) + ix' < (H + 1) * (W + 1) := by
  calc iy' * (W + 1) + ix' < iy' * (W + 1) + (W + 1) := by omega
    _ = (iy' + 1) * (W + 1) := by ring
    _ ≤ (H + 1) * (W + 1) := Nat.mul_le_mul_right _ (by omega)

/-- Helper: every index produced by `sphereIndices` over the actual grid is
below `(H+1)*(W+1)`, the vertex count. -/
theorem sphereIndices_mem_lt (radius : ℝ) (position : Vec3) (W H : ℕ) :
    ∀ x ∈ sphereIndices W H (sphereBuild radius position W H).2,
      x < (H + 1) * (W + 1) := by
  intro x hx
  rw [sphereIndices, List.mem_flatMap] at hx
  obtain ⟨iy, hiy, hx⟩ := hx
  rw [List.mem_flatMap] at hx
  obtain ⟨ix, hix, hx⟩ := hx
  rw [List.mem_range] at hiy hix
  have ga := sphereBuild_grid_getD radius position W H iy (ix + 1)
    (by omega) (by omega)
  have gb := sphereBuild_grid_getD radius position W H iy ix (by omega) (by omega)
  have gc := sphereBuild_grid_getD radius position W H (iy + 1) ix
    (by omega) (by omega)
  have gd := sphereBuild_grid_getD radius position W H (iy + 1) (ix + 1)
    (by omega) (by omega)
  simp only [ga, gb, gc, gd, List.mem_append, List.mem_ite_nil_right,
    List.mem_cons, List.not_mem_nil, or_false] at hx
  rcases hx with ⟨-, h | h | h⟩ | ⟨-, h | h | h⟩ <;> subst h <;>
    exact grid_value_lt W H _ _ (by omega) (by omega)

/-- Helper: the width clamp yields at least 3. -/
theorem clampedWidthSegments_ge (w : ℝ) : 3 ≤ clampedWidthSegments w := by
  unfold clampedWidthSegments
  have h3 : ((3 : ℤ)).toNat ≤ (max 3 ⌊w⌋).toNat :=
    Int.toNat_le_toNat (le_max_left _ _)
  exact h3

/-- Helper: the height clamp yields at least 2. -/
theorem clampedHeightSegments_ge (h : ℝ) : 2 ≤ clampedHeightSegments h := by
  unfold clampedHeightSegments
  have h2 : ((2 : ℤ)).toNat ≤ (max 2 ⌊h⌋).toNat :=
    Int.toNat_le_toNat (le_max_left _ _)
  exact h2

/-- C4: with `W = max(3, ⌊widthSegments⌋)` and `H = max(2, ⌊heightSegments⌋)`,
the sphere mesh has exactly `(W+1)*(H+1)` vertices and exactly
`6*W*(H-1)` indices, every index below the vertex count. -/
theorem sphere_mesh_counts (radius widthSegments heightSegments : ℝ)
    (color : Vec4) (position : Vec3) :
    (SphereGeometry.create radius widthSegments heightSegments color
        position).vertexBuffer.length
      = (clampedWidthSegments widthSegments + 1)
          * (clampedHeightSegments heightSegments + 1)
    ∧ (SphereGeometry.create radius widthSegments heightSegments color
        position).indexBuffer.length
      = 6 * clampedWidthSegments widthSegments
          * (clampedHeightSegments heightSegments - 1)
    ∧ ((SphereGeometry.create radius widthSegments heightSegments color
        position).indexBuffer.all fun idx =>
          idx < (clampedWidthSegments widthSegments + 1)
            * (clampedHeightSegments heightSegments + 1)) = true := by
  set W := clampedWidthSegments widthSegments with hW
  set H := clampedHeightSegments heightSegments with hH
  refine ⟨?_, ?_, ?_⟩
  · simp only [SphereGeometry.create, ← hW, ← hH]
    rw [sphereBuild_fst_length]
    ring
  · simp only [SphereGeometry.create, ← hW, ← hH]
    rw [List.length_map, sphereIndices_length W H _ (clampedHeightSegments_ge _)]
  · simp only [SphereGeometry.create, ← hW, ← hH]
    rw [List.all_eq_true]
    intro x hx
    rw [List.mem_map] at hx
    obtain ⟨y, hy, hxy⟩ := hx
    have hlt := sphereIndices_mem_lt radius position W H y hy
    subst hxy
    have : y % 65536 ≤ y := Nat.mod_le _ _
    simp only [decide_eq_true_eq]
    calc y % 65536 ≤ y := this
      _ < (H + 1) * (W + 1) := hlt
      _ = (W + 1) * (H + 1) := Nat.mul_comm _ _

/-- Helper: for a normalized height in `[0, 1]`, every band of the gradient
produces red, green and blue channels in `[0, 1]` and passes the alpha
through unchanged. -/
theorem sphereBandColor_mem (ny alpha : ℝ) (h0 : 0 ≤ ny) (h1 : ny ≤ 1) :
    (0 ≤ (sphereBandColor ny alpha).x ∧ (sphereBandColor ny alpha).x ≤ 1)
    ∧ (0 ≤ (sphereBandColor ny alpha).y ∧ (sphereBandColor ny alpha).y ≤ 1)
    ∧ (0 ≤ (sphereBandColor ny alpha).z ∧ (sphereBandColor ny alpha).z ≤ 1)
    ∧ (sphereBandColor ny alpha).w = alpha := by
  unfold sphereBandColor
  split_ifs with hb1 hb2 hb3 <;>
    exact ⟨⟨by norm_num <;> linarith, by norm_num <;> linarith⟩,
      ⟨by norm_num <;> linarith, by norm_num <;> linarith⟩,
      ⟨by norm_num <;> linarith, by norm_num <;> linarith⟩, rfl⟩

/-- C10: for every vertex of a sphere mesh (any nonzero radius), the
normalized vertical position lies in `[0, 1]`, the gradient's red, green
and blue channels lie in `[0, 1]`, and the alpha channel equals the input
color's alpha exactly. -/
theorem sphere_vertex_colors_in_range (radius widthSegments heightSegments : ℝ)
    (color : Vec4) (position : Vec3) (i : ℕ) (hr : radius ≠ 0)
    (hi : i < (clampedHeightSegments heightSegments + 1)
      * (clampedWidthSegments widthSegments + 1)) :
    let g := SphereGeometry.create radius widthSegments heightSegments color position
    let ny := sphereNormalizedY radius position ((g.vertexBuffer.getD i ⟨0, 0, 0⟩).y)
    let q := g.colorBuffer.getD i ⟨0, 0, 0, 0⟩
    (0 ≤ ny ∧ ny ≤ 1)
    ∧ (0 ≤ q.x ∧ q.x ≤ 1)
    ∧ (0 ≤ q.y ∧ q.y ≤ 1)
    ∧ (0 ≤ q.z ∧ q.z ≤ 1)
    ∧ q.w = color.w := by
  set W := clampedWidthSegments widthSegments with hWdef
  set H := clampedHeightSegments heightSegments with hHdef
  set iy := i / (W + 1) with hiydef
  set ix := i % (W + 1) with hixdef
  have hdecomp : iy * (W + 1) + ix = i := by
    rw [hiydef, hixdef, Nat.mul_comm]
    exact Nat.div_add_mod i (W + 1)
  have hiy : iy < H + 1 := (Nat.div_lt_iff_lt_mul (by omega)).mpr hi
  have hix : ix < W + 1 := Nat.mod_lt _ (by omega)
  have hvert : (SphereGeometry.create radius widthSegments heightSegments color
        position).vertexBuffer.getD i ⟨0, 0, 0⟩
      = sphereVertexPosition radius position W H iy ix := by
    simp only [SphereGeometry.create, ← hWdef, ← hHdef]
    rw [← hdecomp]
    exact sphereBuild_vertex_getD radius position W H iy ix hiy hix _
  have hilen : i < (sphereBuild radius position W H).1.length := by
    rw [sphereBuild_fst_length]; exact hi
  have hcol : (SphereGeometry.create radius widthSegments heightSegments color
        position).colorBuffer.getD i ⟨0, 0, 0, 0⟩
      = sphereBandColor
          (sphereNormalizedY radius position
            (((sphereBuild radius position W H).1.getD i ⟨0, 0, 0⟩).y))
          color.w := by
    simp only [SphereGeometry.create, ← hWdef, ← hHdef, sphereColors]
    rw [List.getD_eq_getElem?_getD, List.getElem?_map, List.getElem?_range hilen]
    simp
  have hbuildvert : (sphereBuild radius position W H).1.getD i ⟨0, 0, 0⟩
      = sphereVertexPosition radius position W H iy ix := by
    rw [← hdecomp]
    exact sphereBuild_vertex_getD radius position W H iy ix hiy hix _
  have hy : (sphereVertexPosition radius position W H iy ix).y
      = position.y + radius * Real.cos (((iy : ℝ) / ((H : ℕ) : ℝ)) * Real.pi) := rfl
  set c := Real.cos (((iy : ℝ) / ((H : ℕ) : ℝ)) * Real.pi) with hcdef
  have hny : sphereNormalizedY radius position (position.y + radius * c)
      = (c + 1) / 2 := by
    unfold sphereNormalizedY
    rw [show position.y + radius * c - (position.y - radius)
        = radius * (c + 1) by ring,
      show (2 : ℝ) * radius = radius * 2 by ring,
      mul_div_mul_left _ _ hr]
  have hc1 : -1 ≤ c := Real.neg_one_le_cos _
  have hc2 : c ≤ 1 := Real.cos_le_one _
  have h0 : 0 ≤ (c + 1) / 2 := by linarith
  have h1 : (c + 1) / 2 ≤ 1 := by linarith
  have hband := sphereBandColor_mem ((c + 1) / 2) color.w h0 h1
  simp only [hvert, hcol, hbuildvert, hy, ← hcdef, hny]
  exact ⟨⟨h0, h1⟩, hband.1, hband.2.1, hband.2.2.1, hband.2.2.2⟩

/-- Witness for C10: the application's own inner sphere (radius 0.6, 24×18
segments) at vertex 0 satisfies the hypotheses and the bounds. -/
theorem sphere_vertex_colors_in_range_witness :
    ((0.6 : ℝ) ≠ 0)
    ∧ 0 < (clampedHeightSegments 18 + 1) * (clampedWidthSegments 24 + 1)
    ∧ (let g := SphereGeometry.create 0.6 24 18 ⟨0.2, 0.2, 1.0, 1.0⟩ ⟨0, 0, 0⟩
       let ny := sphereNormalizedY 0.6 ⟨0, 0, 0⟩
         ((g.vertexBuffer.getD 0 ⟨0, 0, 0⟩).y)
       let q := g.colorBuffer.getD 0 ⟨0, 0, 0, 0⟩
       (0 ≤ ny ∧ ny ≤ 1)
       ∧ (0 ≤ q.x ∧ q.x ≤ 1)
       ∧ (0 ≤ q.y ∧ q.y ≤ 1)
       ∧ (0 ≤ q.z ∧ q.z ≤ 1)
       ∧ q.w = (1.0 : ℝ)) :=
  ⟨by norm_num, Nat.mul_pos (Nat.succ_pos _) (Nat.succ_pos _),
   sphere_vertex_colors_in_range 0.6 24 18 ⟨0.2, 0.2, 1.0, 1.0⟩ ⟨0, 0, 0⟩ 0
     (by norm_num) (Nat.mul_pos (Nat.succ_pos _) (Nat.succ_pos _))⟩

end Veles
